import Mathlib

/-!
Shallow embedding of the tenant reconciler
(`pkg/controller/tenant/internal_reconciler.go`).

The reconciler talks to two external collaborators: the remote 3scale
("porta") account API and the Kubernetes client. Both are modelled as a
record of state-threading response functions (`Api σ`). Every reconciler
method is translated to a Lean function that threads the collaborator
state `σ` and additionally records the list of external calls it issued
(`Call`), so that properties about which remote operations a run performs,
and in which order, can be stated and proved.
-/

set_option maxHeartbeats 1600000

namespace ThreeScale

/-- Errors returned by the porta client: a typed NotFound versus any other
failure, mirroring `porta_client_pkg.IsNotFound`. -/
inductive PortaErr where
  | notFound
  | other (msg : String)
deriving DecidableEq, Repr

/-- `porta_client_pkg.IsNotFound`. -/
def IsNotFound : PortaErr → Bool
  | .notFound => true
  | .other _ => false

/-- Errors returned by the Kubernetes client: `errors.IsNotFound` versus the
rest. -/
inductive KubeErr where
  | notFound
  | other (msg : String)
deriving DecidableEq, Repr

/-- `k8s.io/apimachinery errors.IsNotFound`. -/
def KubeIsNotFound : KubeErr → Bool
  | .notFound => true
  | .other _ => false

/-- `porta_client_pkg.Account` (the fields the reconciler reads/writes). -/
structure Account where
  id : Int
  orgName : String
  supportEmail : String
  adminDomain : String
deriving DecidableEq, Repr

/-- `porta_client_pkg.Signup`. -/
structure Signup where
  account : Account
deriving DecidableEq, Repr

/-- `porta_client_pkg.Tenant`. -/
structure PortaTenant where
  signup : Signup
deriving DecidableEq, Repr

/-- `porta_client_pkg.User` (the fields the reconciler reads/writes; the
spec's data model gives the administrator user a username, email, role and
activation state). -/
structure User where
  id : Int
  userName : String
  email : String
  state : String
  role : String
deriving DecidableEq, Repr

/-- `porta_client_pkg.Application` (only `UserKey` is used). -/
structure Application where
  userKey : String
deriving DecidableEq, Repr

/-- A secret reference of the Tenant spec: name plus namespace. -/
structure SecretRef where
  name : String
  ns : String
deriving DecidableEq, Repr

/-- `apiv1alpha1.TenantSpec` (the fields the reconciler reads). -/
structure TenantSpec where
  organizationName : String
  email : String
  username : String
  passwordCredentialsRef : SecretRef
  tenantSecretRef : SecretRef
deriving DecidableEq, Repr

/-- `apiv1alpha1.TenantStatus`. -/
structure TenantStatus where
  tenantId : Int
  adminId : Int
deriving DecidableEq, Repr

/-- `apiv1alpha1.Tenant`: the desired-state record (custom resource). -/
structure TenantR where
  ns : String
  name : String
  spec : TenantSpec
  status : TenantStatus
deriving DecidableEq, Repr

/-- Modelled from the spec: the owner reference set by
`addOwnerRefToObject(secret, asOwner(r.tenantR))` (defined elsewhere in the
repository), an ownership back-reference from the created secret to the
desired-state record, used for cascade deletion. -/
structure OwnerRef where
  kind : String
  name : String
deriving DecidableEq, Repr

/-- A Kubernetes `v1.Secret` as the reconciler uses it: identity, string
data, labels, owner references and type. -/
structure K8sSecret where
  ns : String
  name : String
  data : List (String × String)
  labels : List (String × String)
  ownerRefs : List OwnerRef
  secretType : String
deriving DecidableEq, Repr

/-- Modelled from the spec: constant `TenantAdminPasswordSecretField`
(defined elsewhere in the repository), the key under which the referenced
password secret holds the administrator password. -/
def TenantAdminPasswordSecretField : String := "admin_password"

/-- Modelled from the spec: constant `TenantProviderKeySecretField` (defined
elsewhere in the repository), the key under which the created secret stores
the tenant's API access credential. -/
def TenantProviderKeySecretField : String := "token"

/-- Modelled from the spec: constant `TenantAdminDomainKeySecretField`
(defined elsewhere in the repository), the key under which the created
secret stores the admin URL. -/
def TenantAdminDomainKeySecretField : String := "adminURL"

/-- Modelled from the spec: `asOwner` (defined elsewhere in the repository)
builds the owner reference for the desired-state record. -/
def asOwner (r : TenantR) : OwnerRef :=
  { kind := "Tenant", name := r.name }

/-- Modelled from the spec: `URLFromDomain` (defined elsewhere in the
repository) derives a fully-qualified administration URL from the account's
bare admin domain by scheme-prefixing; it fails with a descriptive error if
the domain string is empty. -/
def URLFromDomain (domain : String) : Except String String :=
  if domain = "" then .error "malformed domain"
  else .ok ("https://" ++ domain)

/-- The run-level error type: porta errors, Kubernetes errors and the
reconciler's own `fmt.Errorf` failures, kept structured. -/
inductive RErr where
  | porta (e : PortaErr)
  | kube (e : KubeErr)
  | adminPasswordFieldNotFound (ns name field : String)
  | adminUserNotFound (tenantId : Int) (username email : String)
  | unexpectedApplicationList (tenantId : Int)
  | urlFromDomain (msg : String)
deriving DecidableEq, Repr

/-- One external call issued by the reconciler, with the arguments the code
passes. -/
inductive Call where
  | showTenant (tenantId : Int)
  | createTenant (orgName username email password : String)
  | updateTenant (tenantId : Int) (supportEmail orgName : String)
  | listUsers (accountId : Int) (role : String)
  | readUser (accountId userId : Int)
  | updateUser (accountId userId : Int) (username email : String)
  | activateUser (accountId userId : Int)
  | listApplications (accountId : Int)
  | getSecret (ns name : String)
  | createSecret (secret : K8sSecret)
  | statusUpdate (resource : TenantR)
deriving DecidableEq, Repr

/-- The external collaborators (porta client and Kubernetes client) as
state-threading response functions over a collaborator state `σ`. -/
structure Api (σ : Type) where
  showTenant : Int → σ → Except PortaErr PortaTenant × σ
  createTenant : String → String → String → String → σ → Except PortaErr PortaTenant × σ
  updateTenant : Int → String → String → σ → Except PortaErr PortaTenant × σ
  listUsers : Int → String → σ → Except PortaErr (List User) × σ
  readUser : Int → Int → σ → Except PortaErr User × σ
  updateUser : Int → Int → String → String → σ → Except PortaErr User × σ
  activateUser : Int → Int → σ → Except PortaErr Unit × σ
  listApplications : Int → σ → Except PortaErr (List Application) × σ
  getSecret : String → String → σ → Except KubeErr K8sSecret × σ
  createSecret : K8sSecret → σ → Except KubeErr Unit × σ
  statusUpdate : TenantR → σ → Except KubeErr Unit × σ

variable {σ : Type}

/-- `fetchTenant`: nil when the status tenant id is zero or the remote
lookup reports NotFound; any other lookup error propagates. -/
def fetchTenant (api : Api σ) (r : TenantR) (s : σ) :
    Except RErr (Option PortaTenant) × σ × List Call :=
  if r.status.tenantId = 0 then
    (.ok none, s, [])
  else
    match api.showTenant r.status.tenantId s with
    | (.error e, s') =>
        if IsNotFound e then (.ok none, s', [.showTenant r.status.tenantId])
        else (.error (.porta e), s', [.showTenant r.status.tenantId])
    | (.ok t, s') => (.ok (some t), s', [.showTenant r.status.tenantId])

/-- `getAdminPassword`: reads the password secret from the tenant record's
own namespace under the referenced name and extracts the password field. -/
def getAdminPassword (api : Api σ) (r : TenantR) (s : σ) :
    Except RErr String × σ × List Call :=
  match api.getSecret r.ns r.spec.passwordCredentialsRef.name s with
  | (.error e, s') =>
      (.error (.kube e), s', [.getSecret r.ns r.spec.passwordCredentialsRef.name])
  | (.ok secret, s') =>
      match secret.data.lookup TenantAdminPasswordSecretField with
      | none =>
          (.error (.adminPasswordFieldNotFound r.ns r.spec.passwordCredentialsRef.name
              TenantAdminPasswordSecretField), s',
            [.getSecret r.ns r.spec.passwordCredentialsRef.name])
      | some password =>
          (.ok password, s', [.getSecret r.ns r.spec.passwordCredentialsRef.name])

/-- `createTenant` (reconciler method): fetch the admin password, then issue
the remote account-creation call with the spec's organization name,
username, email and that password. -/
def createTenant (api : Api σ) (r : TenantR) (s : σ) :
    Except RErr PortaTenant × σ × List Call :=
  match getAdminPassword api r s with
  | (.error e, s', tr) => (.error e, s', tr)
  | (.ok password, s', tr) =>
      match api.createTenant r.spec.organizationName r.spec.username r.spec.email password s' with
      | (.error e, s'') =>
          (.error (.porta e), s'',
            tr ++ [.createTenant r.spec.organizationName r.spec.username r.spec.email password])
      | (.ok t, s'') =>
          (.ok t, s'',
            tr ++ [.createTenant r.spec.organizationName r.spec.username r.spec.email password])

/-- `syncTenant`: if the desired organization name or email differs from the
remote values, push an update (carrying both desired values) keyed by the
status tenant id; the local tenant value is mutated accordingly. -/
def syncTenant (api : Api σ) (r : TenantR) (tenantDef : PortaTenant) (s : σ) :
    Except RErr PortaTenant × σ × List Call :=
  let triggerSync : Bool :=
    if r.spec.organizationName ≠ tenantDef.signup.account.orgName then true
    else if r.spec.email ≠ tenantDef.signup.account.supportEmail then true
    else false
  if triggerSync then
    let tenantDef' : PortaTenant :=
      { signup := { account := { tenantDef.signup.account with
          orgName := r.spec.organizationName,
          supportEmail := r.spec.email } } }
    match api.updateTenant r.status.tenantId r.spec.email r.spec.organizationName s with
    | (.error e, s') =>
        (.error (.porta e), s',
          [.updateTenant r.status.tenantId r.spec.email r.spec.organizationName])
    | (.ok _, s') =>
        (.ok tenantDef', s',
          [.updateTenant r.status.tenantId r.spec.email r.spec.organizationName])
  else (.ok tenantDef, s, [])

/-- `reconcileTenant`: ensure the remote tenant account exists (creating it
if absent) and is synced. -/
def reconcileTenant (api : Api σ) (r : TenantR) (s : σ) :
    Except RErr PortaTenant × σ × List Call :=
  match fetchTenant api r s with
  | (.error e, s', tr) => (.error e, s', tr)
  | (.ok none, s', tr) =>
      match createTenant api r s' with
      | (.error e, s'', tr2) => (.error e, s'', tr ++ tr2)
      | (.ok t, s'', tr2) => (.ok t, s'', tr ++ tr2)
  | (.ok (some t), s', tr) =>
      match syncTenant api r t s' with
      | (.error e, s'', tr2) => (.error e, s'', tr ++ tr2)
      | (.ok t', s'', tr2) => (.ok t', s'', tr ++ tr2)

/-- The linear scan of `findAdminUser`'s loop: the first user whose email
and username both equal the desired values. -/
def findMatchingUser (username email : String) : List User → Option User
  | [] => none
  | u :: rest =>
      if u.email = email ∧ u.userName = username then some u
      else findMatchingUser username email rest

/-- `findAdminUser`: list the account's users filtered to role `admin`, scan
for the first entry matching the desired username and email; no match is a
fatal error. -/
def findAdminUser (api : Api σ) (r : TenantR) (tenantDef : PortaTenant) (s : σ) :
    Except RErr User × σ × List Call :=
  match api.listUsers tenantDef.signup.account.id "admin" s with
  | (.error e, s') =>
      (.error (.porta e), s', [.listUsers tenantDef.signup.account.id "admin"])
  | (.ok users, s') =>
      match findMatchingUser r.spec.username r.spec.email users with
      | some u => (.ok u, s', [.listUsers tenantDef.signup.account.id "admin"])
      | none =>
          (.error (.adminUserNotFound tenantDef.signup.account.id r.spec.username r.spec.email),
            s', [.listUsers tenantDef.signup.account.id "admin"])

/-- `fetchAdminUser`: when the status admin id is zero, locate the admin by
listing; otherwise fetch directly by account id + user id, propagating any
error of that read. -/
def fetchAdminUser (api : Api σ) (r : TenantR) (tenantDef : PortaTenant) (s : σ) :
    Except RErr User × σ × List Call :=
  if r.status.adminId = 0 then
    findAdminUser api r tenantDef s
  else
    match api.readUser tenantDef.signup.account.id r.status.adminId s with
    | (.error e, s') =>
        (.error (.porta e), s', [.readUser tenantDef.signup.account.id r.status.adminId])
    | (.ok u, s') =>
        (.ok u, s', [.readUser tenantDef.signup.account.id r.status.adminId])

/-- `activateAdminUser`: the explicit activation call. -/
def activateAdminUser (api : Api σ) (tenantDef : PortaTenant) (adminUser : User) (s : σ) :
    Except RErr Unit × σ × List Call :=
  match api.activateUser tenantDef.signup.account.id adminUser.id s with
  | (.error e, s') =>
      (.error (.porta e), s', [.activateUser tenantDef.signup.account.id adminUser.id])
  | (.ok _, s') =>
      (.ok (), s', [.activateUser tenantDef.signup.account.id adminUser.id])

/-- The drift-correction half of `syncAdminUser`: if the desired username or
email differs, push an update with both fields together; the local user
value is mutated accordingly. -/
def syncAdminUserDrift (api : Api σ) (r : TenantR) (tenantDef : PortaTenant)
    (adminUser : User) (s : σ) : Except RErr User × σ × List Call :=
  let triggerSync : Bool :=
    if r.spec.username ≠ adminUser.userName then true
    else if r.spec.email ≠ adminUser.email then true
    else false
  if triggerSync then
    let adminUser' : User :=
      { adminUser with userName := r.spec.username, email := r.spec.email }
    match api.updateUser tenantDef.signup.account.id adminUser.id
        r.spec.username r.spec.email s with
    | (.error e, s') =>
        (.error (.porta e), s',
          [.updateUser tenantDef.signup.account.id adminUser.id r.spec.username r.spec.email])
    | (.ok _, s') =>
        (.ok adminUser', s',
          [.updateUser tenantDef.signup.account.id adminUser.id r.spec.username r.spec.email])
  else (.ok adminUser, s, [])

/-- `syncAdminUser`: activate the admin first when its state is `pending`,
then correct username/email drift. -/
def syncAdminUser (api : Api σ) (r : TenantR) (tenantDef : PortaTenant)
    (adminUser : User) (s : σ) : Except RErr User × σ × List Call :=
  if adminUser.state = "pending" then
    match activateAdminUser api tenantDef adminUser s with
    | (.error e, s', tr) => (.error e, s', tr)
    | (.ok _, s', tr) =>
        match syncAdminUserDrift api r tenantDef adminUser s' with
        | (res, s'', tr2) => (res, s'', tr ++ tr2)
  else
    syncAdminUserDrift api r tenantDef adminUser s

/-- `reconcileAdminUser`: resolve the admin user, then activate/sync it. -/
def reconcileAdminUser (api : Api σ) (r : TenantR) (tenantDef : PortaTenant) (s : σ) :
    Except RErr User × σ × List Call :=
  match fetchAdminUser api r tenantDef s with
  | (.error e, s', tr) => (.error e, s', tr)
  | (.ok adminUser, s', tr) =>
      match syncAdminUser api r tenantDef adminUser s' with
      | (.error e, s'', tr2) => (.error e, s'', tr ++ tr2)
      | (.ok adminUser', s'', tr2) => (.ok adminUser', s'', tr ++ tr2)

/-- `findAccessTokenSecret`: nil when the secret lookup reports NotFound;
any other error propagates. -/
def findAccessTokenSecret (api : Api σ) (nnNs nnName : String) (s : σ) :
    Except RErr (Option K8sSecret) × σ × List Call :=
  match api.getSecret nnNs nnName s with
  | (.error e, s') =>
      if KubeIsNotFound e then (.ok none, s', [.getSecret nnNs nnName])
      else (.error (.kube e), s', [.getSecret nnNs nnName])
  | (.ok sec, s') => (.ok (some sec), s', [.getSecret nnNs nnName])

/-- `findTenantProviderKey`: list the account's applications; exactly one is
expected, whose user key is the tenant provider key. -/
def findTenantProviderKey (api : Api σ) (tenantDef : PortaTenant) (s : σ) :
    Except RErr String × σ × List Call :=
  match api.listApplications tenantDef.signup.account.id s with
  | (.error e, s') =>
      (.error (.porta e), s', [.listApplications tenantDef.signup.account.id])
  | (.ok apps, s') =>
      match apps with
      | [app] => (.ok app.userKey, s', [.listApplications tenantDef.signup.account.id])
      | _ =>
          (.error (.unexpectedApplicationList tenantDef.signup.account.id), s',
            [.listApplications tenantDef.signup.account.id])

/-- `createTenantProviderKeySecret`: find the provider key, derive the admin
URL, then create the secret with both string fields, the fixed label and
the owner reference. -/
def createTenantProviderKeySecret (api : Api σ) (r : TenantR) (tenantDef : PortaTenant)
    (nnNs nnName : String) (s : σ) : Except RErr Unit × σ × List Call :=
  match findTenantProviderKey api tenantDef s with
  | (.error e, s', tr) => (.error e, s', tr)
  | (.ok tenantProviderKey, s', tr) =>
      match URLFromDomain tenantDef.signup.account.adminDomain with
      | .error msg => (.error (.urlFromDomain msg), s', tr)
      | .ok adminURL =>
          let secret : K8sSecret :=
            { ns := nnNs, name := nnName,
              data := [(TenantProviderKeySecretField, tenantProviderKey),
                       (TenantAdminDomainKeySecretField, adminURL)],
              labels := [("app", "3scale-operator")],
              ownerRefs := [asOwner r],
              secretType := "Opaque" }
          match api.createSecret secret s' with
          | (.error e, s'') => (.error (.kube e), s'', tr ++ [.createSecret secret])
          | (.ok _, s'') => (.ok (), s'', tr ++ [.createSecret secret])

/-- `reconcileAccessTokenSecret`: look the access-token secret up at the
spec's tenant secret reference; create it only when absent. -/
def reconcileAccessTokenSecret (api : Api σ) (r : TenantR) (tenantDef : PortaTenant) (s : σ) :
    Except RErr Unit × σ × List Call :=
  match findAccessTokenSecret api r.spec.tenantSecretRef.ns r.spec.tenantSecretRef.name s with
  | (.error e, s', tr) => (.error e, s', tr)
  | (.ok none, s', tr) =>
      match createTenantProviderKeySecret api r tenantDef
          r.spec.tenantSecretRef.ns r.spec.tenantSecretRef.name s' with
      | (res, s'', tr2) => (res, s'', tr ++ tr2)
  | (.ok (some _), s', tr) => (.ok (), s', tr)

/-- `getTenantStatus`: the candidate status from the observed ids. -/
def getTenantStatus (tenantDef : PortaTenant) (adminUserDef : User) : TenantStatus :=
  { tenantId := tenantDef.signup.account.id, adminId := adminUserDef.id }

/-- `updateTenantStatus`: skip the write when the candidate equals the
current status; otherwise overwrite the record's status and persist via the
status-subresource update, propagating any error. The (possibly mutated)
record is returned alongside. -/
def updateTenantStatus (api : Api σ) (r : TenantR) (tenantStatus : TenantStatus) (s : σ) :
    Except RErr Unit × TenantR × σ × List Call :=
  if r.status = tenantStatus then
    (.ok (), r, s, [])
  else
    let r' : TenantR := { r with status := tenantStatus }
    match api.statusUpdate r' s with
    | (.error e, s') => (.error (.kube e), r', s', [.statusUpdate r'])
    | (.ok _, s') => (.ok (), r', s', [.statusUpdate r'])

/-- `Run`: the four sequential stages, short-circuiting on the first error.
Returns the run result, the record as left by the run, the collaborator
state and the full call trace. -/
def Run (api : Api σ) (r : TenantR) (s : σ) :
    Except RErr Unit × TenantR × σ × List Call :=
  match reconcileTenant api r s with
  | (.error e, s', tr) => (.error e, r, s', tr)
  | (.ok tenantDef, s', tr) =>
      match reconcileAdminUser api r tenantDef s' with
      | (.error e, s'', tr2) => (.error e, r, s'', tr ++ tr2)
      | (.ok adminUserDef, s'', tr2) =>
          match reconcileAccessTokenSecret api r tenantDef s'' with
          | (.error e, s3, tr3) => (.error e, r, s3, tr ++ (tr2 ++ tr3))
          | (.ok _, s3, tr3) =>
              match updateTenantStatus api r (getTenantStatus tenantDef adminUserDef) s3 with
              | (res, r', s4, tr4) => (res, r', s4, tr ++ (tr2 ++ (tr3 ++ tr4)))

/-- Key predicate: the account with a given id. -/
def accountKey (id : Int) (a : Account) : Bool :=
  decide (a.id = id)

/-- Key predicate: the user entry of a given account id and user id. -/
def userKey (accountId userId : Int) (p : Int × User) : Bool :=
  decide (p.1 = accountId ∧ p.2.id = userId)

/-- Key predicate: the user entries of an account having a given role. -/
def roleKey (accountId : Int) (role : String) (p : Int × User) : Bool :=
  decide (p.1 = accountId ∧ p.2.role = role)

/-- Key predicate: the application entries of an account. -/
def appKey (accountId : Int) (p : Int × Application) : Bool :=
  decide (p.1 = accountId)

/-- Key predicate: the secret at a given namespace and name. -/
def secretKey (ns name : String) (x : K8sSecret) : Bool :=
  decide (x.ns = ns ∧ x.name = name)

/-- Modelled from the spec: a concrete state for the external collaborators
(the remote tenant-account API of the spec's External Interfaces section and
the Kubernetes secret store), used to express idempotence. Remote accounts,
administrator users and applications are keyed by integer ids; users and
applications carry their owning account id; fresh ids are allocated from
counters, so real remote ids are always positive (the spec reserves 0 for
"unknown/not yet created"). -/
structure World where
  accounts : List Account
  users : List (Int × User)
  applications : List (Int × Application)
  secrets : List K8sSecret
  nextAccountId : Nat
  nextUserId : Nat
deriving DecidableEq, Repr

namespace World

/-- Modelled from the spec: `showAccount(id) -> account | NotFound`. -/
def showTenant (w : World) (id : Int) : Except PortaErr PortaTenant × World :=
  match w.accounts.find? (accountKey id) with
  | some a => (.ok { signup := { account := a } }, w)
  | none => (.error .notFound, w)

/-- Modelled from the spec: `createAccount(orgName, username, email,
password) -> account`; the control plane auto-provisions exactly one
matching administrator (initially pending, role admin) and the account's
sole provisioning application. -/
def createTenant (w : World) (orgName username email password : String) :
    Except PortaErr PortaTenant × World :=
  let accountId : Int := (w.nextAccountId : Int) + 1
  let userId : Int := (w.nextUserId : Int) + 1
  let account : Account :=
    { id := accountId, orgName := orgName, supportEmail := email,
      adminDomain := "admin." ++ orgName }
  let admin : User :=
    { id := userId, userName := username, email := email,
      state := "pending", role := "admin" }
  let app : Application := { userKey := "key-" ++ password }
  (.ok { signup := { account := account } },
    { accounts := account :: w.accounts,
      users := (accountId, admin) :: w.users,
      applications := (accountId, app) :: w.applications,
      secrets := w.secrets,
      nextAccountId := w.nextAccountId + 1,
      nextUserId := w.nextUserId + 1 })

/-- Modelled from the spec: `updateAccount(id, fields) -> account` for the
two user-settable fields. -/
def updateTenant (w : World) (id : Int) (supportEmail orgName : String) :
    Except PortaErr PortaTenant × World :=
  match w.accounts.find? (accountKey id) with
  | none => (.error .notFound, w)
  | some a =>
      (.ok { signup := { account :=
          { a with orgName := orgName, supportEmail := supportEmail } } },
        { w with accounts := w.accounts.map (fun b =>
            if accountKey id b then { b with orgName := orgName, supportEmail := supportEmail }
            else b) })

/-- Modelled from the spec: `listUsers(accountId, filter) -> [user]` with a
role filter, any activation state. -/
def listUsers (w : World) (accountId : Int) (role : String) :
    Except PortaErr (List User) × World :=
  (.ok ((w.users.filter (roleKey accountId role)).map Prod.snd), w)

/-- Modelled from the spec: `readUser(accountId, userId) -> user`. -/
def readUser (w : World) (accountId userId : Int) : Except PortaErr User × World :=
  match w.users.find? (userKey accountId userId) with
  | some p => (.ok p.2, w)
  | none => (.error .notFound, w)

/-- Modelled from the spec: `updateUser(accountId, userId, fields) -> user`
for the username and email fields. -/
def updateUser (w : World) (accountId userId : Int) (username email : String) :
    Except PortaErr User × World :=
  match w.users.find? (userKey accountId userId) with
  | none => (.error .notFound, w)
  | some p =>
      (.ok { p.2 with userName := username, email := email },
        { w with users := w.users.map (fun q =>
            if userKey accountId userId q then
              (q.1, { q.2 with userName := username, email := email })
            else q) })

/-- Modelled from the spec: `activateUser(accountId, userId) -> error`;
moves the user's activation state to active. -/
def activateUser (w : World) (accountId userId : Int) : Except PortaErr Unit × World :=
  match w.users.find? (userKey accountId userId) with
  | none => (.error .notFound, w)
  | some _ =>
      (.ok (),
        { w with users := w.users.map (fun q =>
            if userKey accountId userId q then (q.1, { q.2 with state := "active" })
            else q) })

/-- Modelled from the spec: `listApplications(accountId) -> [application]`. -/
def listApplications (w : World) (accountId : Int) :
    Except PortaErr (List Application) × World :=
  (.ok ((w.applications.filter (appKey accountId)).map Prod.snd), w)

/-- Modelled from the spec: the secret-value store's
`get(namespace, name) -> secret | NotFound`. -/
def getSecret (w : World) (ns name : String) : Except KubeErr K8sSecret × World :=
  match w.secrets.find? (secretKey ns name) with
  | some sec => (.ok sec, w)
  | none => (.error .notFound, w)

/-- Modelled from the spec: the secret-value store's `create(secret)`. -/
def createSecret (w : World) (sec : K8sSecret) : Except KubeErr Unit × World :=
  match w.secrets.find? (secretKey sec.ns sec.name) with
  | some _ => (.error (.other "already exists"), w)
  | none => (.ok (), { w with secrets := sec :: w.secrets })

/-- Modelled from the spec: the desired-state store's status-subresource
update; the record itself is threaded by the reconciler, so the store state
is unchanged. -/
def statusUpdate (w : World) (_r : TenantR) : Except KubeErr Unit × World :=
  (.ok (), w)

/-- The `Api` built from the world interpretation. -/
def api : Api World where
  showTenant := fun id s => World.showTenant s id
  createTenant := fun o u e p s => World.createTenant s o u e p
  updateTenant := fun id se o s => World.updateTenant s id se o
  listUsers := fun a role s => World.listUsers s a role
  readUser := fun a u s => World.readUser s a u
  updateUser := fun a u un em s => World.updateUser s a u un em
  activateUser := fun a u s => World.activateUser s a u
  listApplications := fun a s => World.listApplications s a
  getSecret := fun ns name s => World.getSecret s ns name
  createSecret := fun sec s => World.createSecret s sec
  statusUpdate := fun r s => World.statusUpdate s r

/-- Well-formedness of a world, from the spec's data model: remote user ids
are positive (0 means "unknown"), below the fresh-id counter, and users are
keyed by account id + user id (no two entries share a key). -/
def WF (w : World) : Prop :=
  (∀ p ∈ w.users, 0 < p.2.id ∧ p.2.id ≤ (w.nextUserId : Int)) ∧
  w.users.Pairwise (fun p q => p.1 ≠ q.1 ∨ p.2.id ≠ q.2.id)

end World

/-- The read-only external calls: lookups and listings, as opposed to
creates, updates, activations and status writes. -/
def Call.isRead : Call → Bool
  | .showTenant _ => true
  | .listUsers _ _ => true
  | .readUser _ _ => true
  | .listApplications _ => true
  | .getSecret _ _ => true
  | _ => false

/-- A converged pair of world and record: the status ids are nonzero and
point at a remote account and administrator whose mutable fields equal the
spec, the administrator is not pending, and the access-token secret exists. -/
def SteadyState (w : World) (r : TenantR) : Prop :=
  r.status.tenantId ≠ 0 ∧
  (∃ a, w.accounts.find? (accountKey r.status.tenantId) = some a ∧
    a.orgName = r.spec.organizationName ∧
    a.supportEmail = r.spec.email ∧
    r.status.adminId ≠ 0 ∧
    (∃ p, w.users.find? (userKey a.id r.status.adminId) = some p ∧
      p.2.userName = r.spec.username ∧
      p.2.email = r.spec.email ∧
      p.2.state ≠ "pending")) ∧
  (w.secrets.find? (secretKey r.spec.tenantSecretRef.ns r.spec.tenantSecretRef.name)).isSome

/-! ### Helper lemmas -/

/-- The loop of `findAdminUser` is the first-match scan `List.find?`. -/
theorem findMatchingUser_eq_find (username email : String) (l : List User) :
    findMatchingUser username email l =
      l.find? (fun u => decide (u.email = email ∧ u.userName = username)) := by
  induction l with
  | nil => rfl
  | cons u rest ih =>
      by_cases h : u.email = email ∧ u.userName = username <;>
        simp [findMatchingUser, List.find?_cons, h, ih]

/-- `syncTenant` issues either no call or exactly the one account-update
call keyed by the status tenant id, carrying the desired email and
organization name. -/
theorem syncTenant_trace (api : Api σ) (r : TenantR) (t : PortaTenant) (s : σ) :
    (syncTenant api r t s).2.2 = [] ∨
    (syncTenant api r t s).2.2 =
      [Call.updateTenant r.status.tenantId r.spec.email r.spec.organizationName] := by
  unfold syncTenant
  rcases hu : api.updateTenant r.status.tenantId r.spec.email r.spec.organizationName s with
    ⟨res, s'⟩
  by_cases h1 : r.spec.organizationName = t.signup.account.orgName <;>
    by_cases h2 : r.spec.email = t.signup.account.supportEmail <;>
      cases res <;> simp [h1, h2, hu]

/-- `getAdminPassword` always issues exactly the one secret lookup, in the
record's own namespace under the referenced name. -/
theorem getAdminPassword_trace (api : Api σ) (r : TenantR) (s : σ) :
    (getAdminPassword api r s).2.2 = [Call.getSecret r.ns r.spec.passwordCredentialsRef.name] := by
  unfold getAdminPassword
  rcases h : api.getSecret r.ns r.spec.passwordCredentialsRef.name s with ⟨res, s'⟩
  cases res with
  | error e => simp
  | ok sec => cases hl : sec.data.lookup TenantAdminPasswordSecretField <;> simp [hl]

/-! ### Claim theorems -/

/-- C1: the remote account-creation call (with the spec's organization name,
username, email, and the password read from the referenced secret) is issued
exactly when the status tenant id is zero, or is nonzero but the remote
lookup by that id reports NotFound; any lookup error other than NotFound
aborts the run with that error and no creation is attempted. -/
theorem reconcileTenant_creation_condition (api : Api σ) (r : TenantR) (s : σ) :
    (r.status.tenantId = 0 →
      reconcileTenant api r s = createTenant api r s) ∧
    (∀ e s', r.status.tenantId ≠ 0 →
      api.showTenant r.status.tenantId s = (.error e, s') → IsNotFound e = true →
      reconcileTenant api r s =
        (match createTenant api r s' with
         | (res, s'', tr) => (res, s'', Call.showTenant r.status.tenantId :: tr))) ∧
    (∀ e s', r.status.tenantId ≠ 0 →
      api.showTenant r.status.tenantId s = (.error e, s') → IsNotFound e = false →
      reconcileTenant api r s = (.error (.porta e), s', [Call.showTenant r.status.tenantId]) ∧
      Run api r s = (.error (.porta e), r, s', [Call.showTenant r.status.tenantId])) ∧
    (∀ t s', r.status.tenantId ≠ 0 →
      api.showTenant r.status.tenantId s = (.ok t, s') →
      ∀ o u em p, Call.createTenant o u em p ∉ (reconcileTenant api r s).2.2) ∧
    (∀ o u em p s0, Call.createTenant o u em p ∈ (createTenant api r s0).2.2 →
      o = r.spec.organizationName ∧ u = r.spec.username ∧ em = r.spec.email ∧
      ∃ s1, getAdminPassword api r s0 = (.ok p, s1,
        [Call.getSecret r.ns r.spec.passwordCredentialsRef.name])) := by
  refine ⟨?_, ?_, ?_, ?_, ?_⟩
  · intro h0
    unfold reconcileTenant fetchTenant
    rcases hc : createTenant api r s with ⟨res, s'', tr2⟩
    cases res <;> simp [h0, hc]
  · intro e s' hne hshow hnf
    unfold reconcileTenant fetchTenant
    rcases hc : createTenant api r s' with ⟨res, s'', tr2⟩
    cases res <;> simp [hne, hshow, hnf, hc]
  · intro e s' hne hshow hnf
    constructor
    · unfold reconcileTenant fetchTenant
      simp [hne, hshow, hnf]
    · unfold Run reconcileTenant fetchTenant
      simp [hne, hshow, hnf]
  · intro t s' hne hshow o u em p
    have hsync := syncTenant_trace api r t s'
    unfold reconcileTenant fetchTenant
    rw [if_neg hne, hshow]
    rcases hs : syncTenant api r t s' with ⟨res, s2, tr2⟩
    rw [hs] at hsync
    simp only at hsync
    rcases hsync with h | h <;> cases res <;> simp [hs, h]
  · intro o u em p s0 hmem
    unfold createTenant at hmem
    rcases hp : getAdminPassword api r s0 with ⟨res, s1, tr1⟩
    have htr := getAdminPassword_trace api r s0
    rw [hp] at hmem htr
    simp only at htr
    cases res with
    | error e =>
        simp only [hp] at hmem
        simp [htr] at hmem
    | ok password =>
        rcases hc : api.createTenant r.spec.organizationName r.spec.username r.spec.email
            password s1 with ⟨res2, s2⟩
        cases res2 <;>
          · simp only [hc] at hmem
            simp [htr] at hmem
            rcases hmem with ⟨h1, h2, h3, h4⟩
            subst h1; subst h2; subst h3; subst h4
            exact ⟨rfl, rfl, rfl, s1, by rw [htr]⟩

/-- C3: when the resolved admin user's state is `pending`, the activation
call is issued first, hence before any profile-update call; when the state
is not `pending`, no activation call is issued at all. -/
theorem syncAdminUser_activation_order (api : Api σ) (r : TenantR)
    (tenantDef : PortaTenant) (adminUser : User) (s : σ) :
    (adminUser.state = "pending" →
      ∃ rest, (syncAdminUser api r tenantDef adminUser s).2.2 =
        Call.activateUser tenantDef.signup.account.id adminUser.id :: rest) ∧
    (adminUser.state ≠ "pending" →
      ∀ a u, Call.activateUser a u ∉ (syncAdminUser api r tenantDef adminUser s).2.2) := by
  constructor
  · intro hpend
    unfold syncAdminUser activateAdminUser
    rcases ha : api.activateUser tenantDef.signup.account.id adminUser.id s with ⟨res, s'⟩
    cases res with
    | error e => exact ⟨[], by simp [hpend, ha]⟩
    | ok _ =>
        rcases hd : syncAdminUserDrift api r tenantDef adminUser s' with ⟨res2, s'', tr2⟩
        exact ⟨tr2, by simp [hpend, ha, hd]⟩
  · intro hpend a u
    unfold syncAdminUser syncAdminUserDrift
    rw [if_neg hpend]
    rcases hu : api.updateUser tenantDef.signup.account.id adminUser.id
        r.spec.username r.spec.email s with ⟨res, s'⟩
    cases res <;> simp only [hu] <;> split_ifs <;> simp

/-- C4: with an existing remote account, the account-update call is issued
if and only if the desired organization name or email differs from the
remote values; the call carries the desired values of both user-settable
fields, and when both are equal no call at all is issued. -/
theorem syncTenant_drift_condition (api : Api σ) (r : TenantR)
    (tenantDef : PortaTenant) (s : σ) :
    ((r.spec.organizationName = tenantDef.signup.account.orgName ∧
      r.spec.email = tenantDef.signup.account.supportEmail) →
      syncTenant api r tenantDef s = (.ok tenantDef, s, [])) ∧
    ((r.spec.organizationName ≠ tenantDef.signup.account.orgName ∨
      r.spec.email ≠ tenantDef.signup.account.supportEmail) →
      (syncTenant api r tenantDef s).2.2 =
        [Call.updateTenant r.status.tenantId r.spec.email r.spec.organizationName]) ∧
    (∀ t s', r.status.tenantId ≠ 0 →
      api.showTenant r.status.tenantId s = (.ok t, s') →
      reconcileTenant api r s =
        (match syncTenant api r t s' with
         | (res, s'', tr2) => (res, s'', Call.showTenant r.status.tenantId :: tr2))) := by
  refine ⟨?_, ?_, ?_⟩
  · rintro ⟨h1, h2⟩
    simp [syncTenant, h1, h2]
  · intro hdrift
    have htrig : (if r.spec.organizationName ≠ tenantDef.signup.account.orgName then true
        else if r.spec.email ≠ tenantDef.signup.account.supportEmail then true
        else false) = true := by
      rcases hdrift with h | h <;> by_cases h2 : r.spec.organizationName ≠ tenantDef.signup.account.orgName <;>
        simp_all
    unfold syncTenant
    dsimp only
    rw [htrig]
    rcases hu : api.updateTenant r.status.tenantId r.spec.email r.spec.organizationName s with
      ⟨res, s'⟩
    cases res <;> simp [hu]
  · intro t s' hne hshow
    unfold reconcileTenant fetchTenant
    rw [if_neg hne, hshow]
    rcases hs : syncTenant api r t s' with ⟨res, s'', tr2⟩
    cases res <;> simp [hs]

/-- C5: with a zero status admin id the admin is resolved by listing the
account's users filtered to the administrator role and scanning for the
first entry whose username and email both equal the desired values; if every
listed user differs in one of the two fields, the run fails with the fatal
admin-user-not-found error. -/
theorem findAdminUser_first_match (api : Api σ) (r : TenantR)
    (tenantDef : PortaTenant) (s : σ) :
    (r.status.adminId = 0 →
      fetchAdminUser api r tenantDef s = findAdminUser api r tenantDef s) ∧
    (∀ users s', api.listUsers tenantDef.signup.account.id "admin" s = (.ok users, s') →
      findAdminUser api r tenantDef s =
        (match users.find? (fun u => decide (u.email = r.spec.email ∧ u.userName = r.spec.username)) with
         | some u => (.ok u, s', [Call.listUsers tenantDef.signup.account.id "admin"])
         | none =>
             (.error (.adminUserNotFound tenantDef.signup.account.id r.spec.username r.spec.email),
               s', [Call.listUsers tenantDef.signup.account.id "admin"])) ∧
      ((∀ u ∈ users, u.userName ≠ r.spec.username ∨ u.email ≠ r.spec.email) →
        findAdminUser api r tenantDef s =
          (.error (.adminUserNotFound tenantDef.signup.account.id r.spec.username r.spec.email),
            s', [Call.listUsers tenantDef.signup.account.id "admin"]))) := by
  constructor
  · intro h0
    unfold fetchAdminUser
    simp [h0]
  · intro users s' hlist
    have hbody : findAdminUser api r tenantDef s =
        (match users.find? (fun u => decide (u.email = r.spec.email ∧ u.userName = r.spec.username)) with
         | some u => (.ok u, s', [Call.listUsers tenantDef.signup.account.id "admin"])
         | none =>
             (.error (.adminUserNotFound tenantDef.signup.account.id r.spec.username r.spec.email),
               s', [Call.listUsers tenantDef.signup.account.id "admin"])) := by
      unfold findAdminUser
      rw [hlist]
      dsimp only
      rw [findMatchingUser_eq_find]
    refine ⟨hbody, fun hall => ?_⟩
    have hnone : users.find?
        (fun u => decide (u.email = r.spec.email ∧ u.userName = r.spec.username)) = none := by
      rw [List.find?_eq_none]
      intro u hu
      rcases hall u hu with h | h <;> simp [h]
    rw [hbody, hnone]

/-- C6: when secret creation is reached (the secret is absent) and the
account's application list has length other than one, the run fails with the
descriptive fatal error and no secret-create call is issued. -/
theorem reconcileAccessTokenSecret_application_count (api : Api σ) (r : TenantR)
    (tenantDef : PortaTenant) (s s' s'' : σ) (e : KubeErr) (apps : List Application)
    (hget : api.getSecret r.spec.tenantSecretRef.ns r.spec.tenantSecretRef.name s = (.error e, s'))
    (hnf : KubeIsNotFound e = true)
    (happs : api.listApplications tenantDef.signup.account.id s' = (.ok apps, s''))
    (hlen : apps.length ≠ 1) :
    reconcileAccessTokenSecret api r tenantDef s =
      (.error (.unexpectedApplicationList tenantDef.signup.account.id), s'',
        [Call.getSecret r.spec.tenantSecretRef.ns r.spec.tenantSecretRef.name,
         Call.listApplications tenantDef.signup.account.id]) ∧
    ∀ sec, Call.createSecret sec ∉ (reconcileAccessTokenSecret api r tenantDef s).2.2 := by
  have h1 : findAccessTokenSecret api r.spec.tenantSecretRef.ns r.spec.tenantSecretRef.name s =
      (.ok none, s', [Call.getSecret r.spec.tenantSecretRef.ns r.spec.tenantSecretRef.name]) := by
    unfold findAccessTokenSecret
    rw [hget]
    dsimp only
    rw [if_pos hnf]
  have h2 : findTenantProviderKey api tenantDef s' =
      (.error (.unexpectedApplicationList tenantDef.signup.account.id), s'',
        [Call.listApplications tenantDef.signup.account.id]) := by
    unfold findTenantProviderKey
    rw [happs]
    dsimp only
    match apps, hlen with
    | [], _ => rfl
    | [a], h => exact absurd rfl h
    | a :: b :: rest, _ => rfl
  have h3 : createTenantProviderKeySecret api r tenantDef r.spec.tenantSecretRef.ns
      r.spec.tenantSecretRef.name s' =
      (.error (.unexpectedApplicationList tenantDef.signup.account.id), s'',
        [Call.listApplications tenantDef.signup.account.id]) := by
    unfold createTenantProviderKeySecret
    rw [h2]
  have hmain : reconcileAccessTokenSecret api r tenantDef s =
      (.error (.unexpectedApplicationList tenantDef.signup.account.id), s'',
        [Call.getSecret r.spec.tenantSecretRef.ns r.spec.tenantSecretRef.name,
         Call.listApplications tenantDef.signup.account.id]) := by
    unfold reconcileAccessTokenSecret
    rw [h1]
    dsimp only
    rw [h3]
    simp
  exact ⟨hmain, fun sec => by rw [hmain]; simp⟩

/-- C7: the candidate status is the observed account id and admin id; if it
equals the record's current status (structural equality) no persistence call
is issued and the stage succeeds, otherwise the record's status is replaced
by the candidate and persisted via the status-subresource update, with any
persistence error propagated. -/
theorem updateTenantStatus_structural_equality (api : Api σ) (r : TenantR)
    (tenantDef : PortaTenant) (adminUserDef : User) (s : σ) :
    getTenantStatus tenantDef adminUserDef =
      { tenantId := tenantDef.signup.account.id, adminId := adminUserDef.id } ∧
    (r.status = getTenantStatus tenantDef adminUserDef →
      updateTenantStatus api r (getTenantStatus tenantDef adminUserDef) s = (.ok (), r, s, [])) ∧
    (∀ ts : TenantStatus, r.status ≠ ts →
      updateTenantStatus api r ts s =
        (match api.statusUpdate { r with status := ts } s with
         | (.error e, s') =>
             (.error (.kube e), { r with status := ts }, s', [.statusUpdate { r with status := ts }])
         | (.ok _, s') =>
             (.ok (), { r with status := ts }, s', [.statusUpdate { r with status := ts }]))) := by
  refine ⟨rfl, ?_, ?_⟩
  · intro heq
    simp [updateTenantStatus, heq]
  · intro ts hne
    unfold updateTenantStatus
    rcases hu : api.statusUpdate { r with status := ts } s with ⟨res, s'⟩
    cases res <;> simp [hne, hu]

/-- C9: the administrator password secret is looked up in the tenant
record's own namespace under the referenced name; the namespace given in the
password-credentials reference is never used, so changing it changes
nothing. -/
theorem getAdminPassword_uses_own_namespace (api : Api σ) (r : TenantR) (s : σ)
    (ns' : String) :
    (getAdminPassword api r s).2.2 =
      [Call.getSecret r.ns r.spec.passwordCredentialsRef.name] ∧
    getAdminPassword api
      { r with spec := { r.spec with passwordCredentialsRef :=
          { r.spec.passwordCredentialsRef with ns := ns' } } } s =
      getAdminPassword api r s := by
  exact ⟨getAdminPassword_trace api r s, rfl⟩

/-- C10: when the candidate status differs from the current status, the
in-memory record's status is overwritten before the persistence call, so a
failing status-subresource update returns the error while the record
already holds the new status. -/
theorem updateTenantStatus_overwrites_before_persist (api : Api σ) (r : TenantR)
    (ts : TenantStatus) (s : σ) (e : KubeErr) (s' : σ)
    (hne : r.status ≠ ts)
    (herr : api.statusUpdate { r with status := ts } s = (.error e, s')) :
    updateTenantStatus api r ts s =
      (.error (.kube e), { r with status := ts }, s',
        [Call.statusUpdate { r with status := ts }]) := by
  unfold updateTenantStatus
  simp [hne, herr]

/-! ### List lemmas for the world interpretation -/

/-- Mapping a keyed in-place update over a list commutes with finding the
first key match, provided the update preserves the key. -/
theorem find_map_update {α : Type} (p : α → Bool) (g : α → α)
    (hg : ∀ x, p x = true → p (g x) = true) :
    ∀ l : List α, (l.map (fun x => if p x then g x else x)).find? p = (l.find? p).map g := by
  intro l
  induction l with
  | nil => rfl
  | cons a l ih =>
      by_cases h : p a = true
      · simp [List.find?_cons, h, hg a h]
      · have h' : p a = false := by
          cases hpa : p a
          · rfl
          · exact absurd hpa h
        simp [List.find?_cons, h', ih]

/-- When at most one element of the list satisfies the key (pairwise key
disjointness) and a member satisfies it, `find?` returns that member. -/
theorem find_eq_some_of_mem_unique {α : Type} {p : α → Bool} {l : List α} {a : α}
    (ha : a ∈ l) (hpa : p a = true)
    (huniq : l.Pairwise (fun x y => ¬(p x = true ∧ p y = true))) :
    l.find? p = some a := by
  induction l with
  | nil => cases ha
  | cons b l ih =>
      rcases List.mem_cons.mp ha with rfl | ha'
      · simp [List.find?_cons, hpa]
      · have hpb : p b = false := by
          cases hpb : p b
          · rfl
          · exact absurd ⟨hpb, hpa⟩ ((List.pairwise_cons.mp huniq).1 a ha')
        simp [List.find?_cons, hpb]
        exact ih ha' (List.pairwise_cons.mp huniq).2

/-- What a successful `findMatchingUser` scan returns: a member of the list
matching the desired email and username. -/
theorem findMatchingUser_spec {username email : String} {l : List User} {u : User}
    (h : findMatchingUser username email l = some u) :
    u ∈ l ∧ u.email = email ∧ u.userName = username := by
  rw [findMatchingUser_eq_find] at h
  have hmem := List.mem_of_find?_eq_some h
  have hp := List.find?_some h
  simp only [decide_eq_true_eq] at hp
  exact ⟨hmem, hp.1, hp.2⟩

/-! ### World lemmas: the first run's postcondition, stage by stage -/

/-- Decoding the account key predicate. -/
theorem accountKey_eq {id : Int} {a : Account} (h : accountKey id a = true) : a.id = id := by
  simpa [accountKey] using h

/-- Decoding the user key predicate. -/
theorem userKey_eq {aid uid : Int} {p : Int × User} (h : userKey aid uid p = true) :
    p.1 = aid ∧ p.2.id = uid := by
  simpa [userKey] using h

/-- `getAdminPassword` against the world interpretation never changes the
world. -/
theorem getAdminPassword_world_state (r : TenantR) (w : World) :
    (getAdminPassword World.api r w).2.1 = w := by
  unfold getAdminPassword
  have hg : World.api.getSecret r.ns r.spec.passwordCredentialsRef.name w =
      World.getSecret w r.ns r.spec.passwordCredentialsRef.name := rfl
  rw [hg]
  unfold World.getSecret
  cases hfind : w.secrets.find? (secretKey r.ns r.spec.passwordCredentialsRef.name) with
  | none => rfl
  | some sec =>
      dsimp only
      cases hl : sec.data.lookup TenantAdminPasswordSecretField <;> rfl

/-- A successful `createTenant` against the world interpretation prepends a
fresh account with positive id carrying the spec's organization name and
email (and its pending administrator), preserving well-formedness. -/
theorem createTenant_world_post {r : TenantR} {w : World} {t : PortaTenant}
    {w1 : World} {tr1 : List Call}
    (hWF : World.WF w)
    (h : createTenant World.api r w = (.ok t, w1, tr1)) :
    World.WF w1 ∧
    t.signup.account.id ≠ 0 ∧
    t.signup.account.orgName = r.spec.organizationName ∧
    t.signup.account.supportEmail = r.spec.email ∧
    w1.accounts.find? (accountKey t.signup.account.id) = some t.signup.account := by
  unfold createTenant at h
  rcases hp : getAdminPassword World.api r w with ⟨resp, wp, trp⟩
  have hwp : wp = w := by
    have hst := getAdminPassword_world_state r w
    rw [hp] at hst
    exact hst
  subst hwp
  rw [hp] at h
  cases resp with
  | error e => simp at h
  | ok pw =>
      dsimp only at h
      have hc : World.api.createTenant r.spec.organizationName r.spec.username r.spec.email pw wp
          = World.createTenant wp r.spec.organizationName r.spec.username r.spec.email pw := rfl
      rw [hc] at h
      unfold World.createTenant at h
      dsimp only at h
      simp only [Prod.mk.injEq, Except.ok.injEq] at h
      obtain ⟨ht, hw, -⟩ := h
      subst ht
      subst hw
      refine ⟨⟨?_, ?_⟩, ?_, rfl, rfl, ?_⟩
      · intro p hp2
        rcases List.mem_cons.mp hp2 with rfl | hmem
        · dsimp only
          constructor
          · omega
          · push_cast
            omega
        · obtain ⟨hlt, hle⟩ := hWF.1 p hmem
          refine ⟨hlt, ?_⟩
          dsimp only
          push_cast
          omega
      · rw [List.pairwise_cons]
        refine ⟨?_, hWF.2⟩
        intro q hq
        right
        have hb := (hWF.1 q hq).2
        dsimp only
        omega
      · dsimp only
        omega
      · dsimp only
        simp [List.find?_cons, accountKey]

/-- A successful `syncTenant` against the world interpretation leaves the
found account at the same key with the spec's organization name and email,
and does not touch users or the user-id counter. -/
theorem syncTenant_world_post {r : TenantR} {w : World} {a : Account} {t' : PortaTenant}
    {w1 : World} {tr1 : List Call}
    (hfind : w.accounts.find? (accountKey r.status.tenantId) = some a)
    (h : syncTenant World.api r { signup := { account := a } } w = (.ok t', w1, tr1)) :
    t'.signup.account.id = a.id ∧
    t'.signup.account.orgName = r.spec.organizationName ∧
    t'.signup.account.supportEmail = r.spec.email ∧
    w1.accounts.find? (accountKey t'.signup.account.id) = some t'.signup.account ∧
    w1.users = w.users ∧ w1.nextUserId = w.nextUserId := by
  have haid : a.id = r.status.tenantId := accountKey_eq (List.find?_some hfind)
  unfold syncTenant at h
  dsimp only at h
  by_cases h1 : r.spec.organizationName = a.orgName ∧ r.spec.email = a.supportEmail
  · obtain ⟨h1a, h1b⟩ := h1
    rw [if_neg (not_not_intro h1a), if_neg (not_not_intro h1b)] at h
    rw [if_neg (Bool.false_ne_true)] at h
    simp only [Prod.mk.injEq, Except.ok.injEq] at h
    obtain ⟨ht, hw, -⟩ := h
    subst ht
    subst hw
    refine ⟨rfl, h1a.symm, h1b.symm, ?_, rfl, rfl⟩
    dsimp only
    rw [haid]
    exact hfind
  · have htrig : (if r.spec.organizationName ≠ a.orgName then true
        else if r.spec.email ≠ a.supportEmail then true else false) = true := by
      by_cases hA : r.spec.organizationName = a.orgName
      · have hB : r.spec.email ≠ a.supportEmail := fun hB => h1 ⟨hA, hB⟩
        simp [hA, hB]
      · simp [hA]
    rw [htrig, if_pos rfl] at h
    have hup : World.api.updateTenant r.status.tenantId r.spec.email r.spec.organizationName w
        = World.updateTenant w r.status.tenantId r.spec.email r.spec.organizationName := rfl
    rw [hup] at h
    unfold World.updateTenant at h
    rw [hfind] at h
    dsimp only at h
    simp only [Prod.mk.injEq, Except.ok.injEq] at h
    obtain ⟨ht, hw, -⟩ := h
    subst ht
    subst hw
    refine ⟨rfl, rfl, rfl, ?_, rfl, rfl⟩
    dsimp only
    rw [haid]
    rw [find_map_update (accountKey r.status.tenantId)
      (fun b => { b with orgName := r.spec.organizationName, supportEmail := r.spec.email })
      (fun x hx => hx)]
    rw [hfind]
    simp [haid]

/-- A successful first stage (`reconcileTenant`) against the world
interpretation: well-formedness is preserved and the returned tenant's
account is found in the new world at its id, nonzero, with the spec's
organization name and email. -/
theorem reconcileTenant_world_post {r : TenantR} {w : World} {t : PortaTenant}
    {w1 : World} {tr1 : List Call}
    (hWF : World.WF w)
    (h : reconcileTenant World.api r w = (.ok t, w1, tr1)) :
    World.WF w1 ∧
    t.signup.account.id ≠ 0 ∧
    t.signup.account.orgName = r.spec.organizationName ∧
    t.signup.account.supportEmail = r.spec.email ∧
    w1.accounts.find? (accountKey t.signup.account.id) = some t.signup.account := by
  unfold reconcileTenant fetchTenant at h
  by_cases h0 : r.status.tenantId = 0
  · rw [if_pos h0] at h
    dsimp only at h
    rcases hc : createTenant World.api r w with ⟨resc, wc, trc⟩
    rw [hc] at h
    cases resc with
    | error e => simp at h
    | ok tc =>
        dsimp only at h
        simp only [Prod.mk.injEq, Except.ok.injEq] at h
        obtain ⟨ht, hw, -⟩ := h
        subst ht
        subst hw
        exact createTenant_world_post hWF hc
  · rw [if_neg h0] at h
    have hs : World.api.showTenant r.status.tenantId w
        = World.showTenant w r.status.tenantId := rfl
    rw [hs] at h
    unfold World.showTenant at h
    cases hfind : w.accounts.find? (accountKey r.status.tenantId) with
    | none =>
        rw [hfind] at h
        dsimp only at h
        rw [if_pos (show IsNotFound PortaErr.notFound = true from rfl)] at h
        dsimp only at h
        rcases hc : createTenant World.api r w with ⟨resc, wc, trc⟩
        rw [hc] at h
        cases resc with
        | error e => simp at h
        | ok tc =>
            dsimp only at h
            simp only [Prod.mk.injEq, Except.ok.injEq] at h
            obtain ⟨ht, hw, -⟩ := h
            subst ht
            subst hw
            exact createTenant_world_post hWF hc
    | some a =>
        rw [hfind] at h
        dsimp only at h
        rcases hsy : syncTenant World.api r { signup := { account := a } } w with ⟨ress, ws, trs⟩
        rw [hsy] at h
        cases ress with
        | error e => simp at h
        | ok t' =>
            dsimp only at h
            simp only [Prod.mk.injEq, Except.ok.injEq] at h
            obtain ⟨ht, hw, -⟩ := h
            subst ht
            subst hw
            obtain ⟨hid, horg, hemail, hfind', husers, hnext⟩ := syncTenant_world_post hfind hsy
            refine ⟨?_, ?_, horg, hemail, hfind'⟩
            · unfold World.WF at hWF ⊢
              rw [husers, hnext]
              exact hWF
            · rw [hid, accountKey_eq (List.find?_some hfind)]
              exact h0

/-- `syncAdminUserDrift` against the world interpretation, run on a local
user whose first key match in the world carries the same username and email:
afterwards the first key match carries the spec's username and email with
its activation state unchanged, and the returned user keeps its id. -/
theorem syncAdminUserDrift_world_post {r : TenantR} {t : PortaTenant} {w : World}
    {u0 : User} {p0 : Int × User} {u' : User} {w2 : World} {tr2 : List Call}
    (hfind : w.users.find? (userKey t.signup.account.id u0.id) = some p0)
    (hname : p0.2.userName = u0.userName) (hemail : p0.2.email = u0.email)
    (h : syncAdminUserDrift World.api r t u0 w = (.ok u', w2, tr2)) :
    u'.id = u0.id ∧
    (∃ q, w2.users.find? (userKey t.signup.account.id u0.id) = some q ∧
      q.2.userName = r.spec.username ∧ q.2.email = r.spec.email ∧
      q.2.state = p0.2.state) ∧
    w2.accounts = w.accounts ∧ w2.secrets = w.secrets := by
  unfold syncAdminUserDrift at h
  dsimp only at h
  by_cases hd : r.spec.username = u0.userName ∧ r.spec.email = u0.email
  · obtain ⟨h1, h2⟩ := hd
    rw [if_neg (not_not_intro h1), if_neg (not_not_intro h2),
      if_neg Bool.false_ne_true] at h
    simp only [Prod.mk.injEq, Except.ok.injEq] at h
    obtain ⟨hu, hw, -⟩ := h
    subst hu
    subst hw
    exact ⟨rfl, ⟨p0, hfind, hname.trans h1.symm, hemail.trans h2.symm, rfl⟩, rfl, rfl⟩
  · have htrig : (if r.spec.username ≠ u0.userName then true
        else if r.spec.email ≠ u0.email then true else false) = true := by
      by_cases hA : r.spec.username = u0.userName
      · have hB : r.spec.email ≠ u0.email := fun hB => hd ⟨hA, hB⟩
        simp [hA, hB]
      · simp [hA]
    rw [htrig, if_pos rfl] at h
    have hupd : World.api.updateUser t.signup.account.id u0.id r.spec.username r.spec.email w
        = World.updateUser w t.signup.account.id u0.id r.spec.username r.spec.email := rfl
    rw [hupd] at h
    unfold World.updateUser at h
    rw [hfind] at h
    dsimp only at h
    simp only [Prod.mk.injEq, Except.ok.injEq] at h
    obtain ⟨hu, hw, -⟩ := h
    subst hu
    subst hw
    refine ⟨rfl, ⟨(p0.1, { p0.2 with userName := r.spec.username, email := r.spec.email }),
      ?_, rfl, rfl, rfl⟩, rfl, rfl⟩
    dsimp only
    rw [find_map_update (userKey t.signup.account.id u0.id)
      (fun q => (q.1, { q.2 with userName := r.spec.username, email := r.spec.email }))
      (fun x hx => by simp only [userKey, decide_eq_true_eq] at hx ⊢; exact hx)]
    rw [hfind]
    rfl

/-- `syncAdminUser` against the world interpretation on the user held at the
first key match: afterwards the first key match carries the spec's username
and email and is not pending, and the returned user keeps its id; accounts
and secrets are untouched. -/
theorem syncAdminUser_world_post {r : TenantR} {t : PortaTenant} {w : World}
    {p0 : Int × User} {u' : User} {w2 : World} {tr2 : List Call}
    (hfind : w.users.find? (userKey t.signup.account.id p0.2.id) = some p0)
    (h : syncAdminUser World.api r t p0.2 w = (.ok u', w2, tr2)) :
    u'.id = p0.2.id ∧
    (∃ q, w2.users.find? (userKey t.signup.account.id p0.2.id) = some q ∧
      q.2.userName = r.spec.username ∧ q.2.email = r.spec.email ∧
      q.2.state ≠ "pending") ∧
    w2.accounts = w.accounts ∧ w2.secrets = w.secrets := by
  unfold syncAdminUser at h
  by_cases hpend : p0.2.state = "pending"
  · rw [if_pos hpend] at h
    unfold activateAdminUser at h
    have ha : World.api.activateUser t.signup.account.id p0.2.id w
        = World.activateUser w t.signup.account.id p0.2.id := rfl
    rw [ha] at h
    unfold World.activateUser at h
    rw [hfind] at h
    dsimp only at h
    have hfindA : ({ w with users := w.users.map (fun q =>
        if userKey t.signup.account.id p0.2.id q then (q.1, { q.2 with state := "active" })
        else q) } : World).users.find? (userKey t.signup.account.id p0.2.id)
        = some (p0.1, { p0.2 with state := "active" }) := by
      dsimp only
      rw [find_map_update (userKey t.signup.account.id p0.2.id)
        (fun q => (q.1, { q.2 with state := "active" }))
        (fun x hx => by simp only [userKey, decide_eq_true_eq] at hx ⊢; exact hx)]
      rw [hfind]
      rfl
    rcases hda : syncAdminUserDrift World.api r t p0.2
        { w with users := w.users.map (fun q =>
            if userKey t.signup.account.id p0.2.id q then (q.1, { q.2 with state := "active" })
            else q) } with ⟨resd, wd, trd⟩
    rw [hda] at h
    cases resd with
    | error e => simp at h
    | ok ud =>
        dsimp only at h
        simp only [Prod.mk.injEq, Except.ok.injEq] at h
        obtain ⟨hu, hw, -⟩ := h
        subst hu
        subst hw
        obtain ⟨hid, ⟨q, hq, hqn, hqe, hqs⟩, hacc, hsec⟩ :=
          syncAdminUserDrift_world_post hfindA rfl rfl hda
        exact ⟨hid, ⟨q, hq, hqn, hqe, by rw [hqs]; simp⟩, hacc, hsec⟩
  · rw [if_neg hpend] at h
    obtain ⟨hid, ⟨q, hq, hqn, hqe, hqs⟩, hacc, hsec⟩ :=
      syncAdminUserDrift_world_post hfind rfl rfl h
    exact ⟨hid, ⟨q, hq, hqn, hqe, by rw [hqs]; exact hpend⟩, hacc, hsec⟩

/-- A successful second stage (`reconcileAdminUser`) against the world
interpretation: the returned admin's id is nonzero, the world's first user
entry at the account id + that id carries the spec's username and email and
is not pending, and accounts and secrets are untouched. -/
theorem reconcileAdminUser_world_post {r : TenantR} {t : PortaTenant} {w1 : World}
    {u' : User} {w2 : World} {tr2 : List Call}
    (hWF : World.WF w1)
    (h : reconcileAdminUser World.api r t w1 = (.ok u', w2, tr2)) :
    u'.id ≠ 0 ∧
    (∃ q, w2.users.find? (userKey t.signup.account.id u'.id) = some q ∧
      q.2.userName = r.spec.username ∧ q.2.email = r.spec.email ∧
      q.2.state ≠ "pending") ∧
    w2.accounts = w1.accounts ∧ w2.secrets = w1.secrets := by
  unfold reconcileAdminUser fetchAdminUser at h
  by_cases h0 : r.status.adminId = 0
  · rw [if_pos h0] at h
    unfold findAdminUser at h
    have hl : World.api.listUsers t.signup.account.id "admin" w1
        = World.listUsers w1 t.signup.account.id "admin" := rfl
    rw [hl] at h
    unfold World.listUsers at h
    dsimp only at h
    cases hm : findMatchingUser r.spec.username r.spec.email
        ((w1.users.filter (roleKey t.signup.account.id "admin")).map Prod.snd) with
    | none => rw [hm] at h; simp at h
    | some u0 =>
        rw [hm] at h
        dsimp only at h
        obtain ⟨hmem, hemail0, husername0⟩ := findMatchingUser_spec hm
        obtain ⟨p0, hp0mem, hp0snd⟩ := List.mem_map.mp hmem
        subst hp0snd
        have hp0filter := List.of_mem_filter hp0mem
        have hp0mem' : p0 ∈ w1.users := List.mem_of_mem_filter hp0mem
        have hp0aid : p0.1 = t.signup.account.id := by
          have hk : p0.1 = t.signup.account.id ∧ p0.2.role = "admin" := by
            simpa [roleKey] using hp0filter
          exact hk.1
        have hfindU : w1.users.find? (userKey t.signup.account.id p0.2.id) = some p0 := by
          apply find_eq_some_of_mem_unique hp0mem'
          · simp [userKey, hp0aid]
          · refine List.Pairwise.imp ?_ hWF.2
            intro x y hxy
            rintro ⟨hx, hy⟩
            obtain ⟨hx1, hx2⟩ := userKey_eq hx
            obtain ⟨hy1, hy2⟩ := userKey_eq hy
            rcases hxy with h' | h'
            · exact h' (hx1.trans hy1.symm)
            · exact h' (hx2.trans hy2.symm)
        rcases hsy : syncAdminUser World.api r t p0.2 w1 with ⟨ress, ws, trs⟩
        rw [hsy] at h
        cases ress with
        | error e => simp at h
        | ok uu =>
            dsimp only at h
            simp only [Prod.mk.injEq, Except.ok.injEq] at h
            obtain ⟨hu, hw, -⟩ := h
            subst hu
            subst hw
            obtain ⟨hid, hq, hacc, hsec⟩ := syncAdminUser_world_post hfindU hsy
            refine ⟨?_, ?_, hacc, hsec⟩
            · rw [hid]
              exact ne_of_gt (hWF.1 p0 hp0mem').1
            · rw [hid]
              exact hq
  · rw [if_neg h0] at h
    have hr : World.api.readUser t.signup.account.id r.status.adminId w1
        = World.readUser w1 t.signup.account.id r.status.adminId := rfl
    rw [hr] at h
    unfold World.readUser at h
    cases hfindU : w1.users.find? (userKey t.signup.account.id r.status.adminId) with
    | none => rw [hfindU] at h; simp at h
    | some p0 =>
        rw [hfindU] at h
        dsimp only at h
        have hpid : p0.2.id = r.status.adminId := (userKey_eq (List.find?_some hfindU)).2
        have hfindU' : w1.users.find? (userKey t.signup.account.id p0.2.id) = some p0 := by
          rw [hpid]
          exact hfindU
        rcases hsy : syncAdminUser World.api r t p0.2 w1 with ⟨ress, ws, trs⟩
        rw [hsy] at h
        cases ress with
        | error e => simp at h
        | ok uu =>
            dsimp only at h
            simp only [Prod.mk.injEq, Except.ok.injEq] at h
            obtain ⟨hu, hw, -⟩ := h
            subst hu
            subst hw
            obtain ⟨hid, hq, hacc, hsec⟩ := syncAdminUser_world_post hfindU' hsy
            refine ⟨?_, ?_, hacc, hsec⟩
            · rw [hid, hpid]
              exact h0
            · rw [hid]
              exact hq

/-- A successful third stage (`reconcileAccessTokenSecret`) against the
world interpretation: afterwards the access-token secret exists at the
spec's tenant secret reference, and accounts and users are untouched. -/
theorem reconcileAccessTokenSecret_world_post {r : TenantR} {t : PortaTenant} {w2 : World}
    {w3 : World} {tr3 : List Call}
    (h : reconcileAccessTokenSecret World.api r t w2 = (.ok (), w3, tr3)) :
    (w3.secrets.find? (secretKey r.spec.tenantSecretRef.ns r.spec.tenantSecretRef.name)).isSome ∧
    w3.accounts = w2.accounts ∧ w3.users = w2.users := by
  unfold reconcileAccessTokenSecret findAccessTokenSecret at h
  have hg : World.api.getSecret r.spec.tenantSecretRef.ns r.spec.tenantSecretRef.name w2
      = World.getSecret w2 r.spec.tenantSecretRef.ns r.spec.tenantSecretRef.name := rfl
  rw [hg] at h
  unfold World.getSecret at h
  cases hfind : w2.secrets.find?
      (secretKey r.spec.tenantSecretRef.ns r.spec.tenantSecretRef.name) with
  | some sec =>
      rw [hfind] at h
      dsimp only at h
      simp only [Prod.mk.injEq] at h
      obtain ⟨-, hw, -⟩ := h
      subst hw
      refine ⟨?_, rfl, rfl⟩
      rw [hfind]
      rfl
  | none =>
      rw [hfind] at h
      dsimp only at h
      rw [if_pos (show KubeIsNotFound KubeErr.notFound = true from rfl)] at h
      dsimp only at h
      unfold createTenantProviderKeySecret findTenantProviderKey at h
      have hla : World.api.listApplications t.signup.account.id w2
          = World.listApplications w2 t.signup.account.id := rfl
      rw [hla] at h
      unfold World.listApplications at h
      dsimp only at h
      cases happ : (w2.applications.filter (appKey t.signup.account.id)).map Prod.snd with
      | nil => rw [happ] at h; simp at h
      | cons app rest =>
          cases rest with
          | cons b rest2 => rw [happ] at h; simp at h
          | nil =>
              rw [happ] at h
              dsimp only at h
              cases hurl : URLFromDomain t.signup.account.adminDomain with
              | error msg => rw [hurl] at h; simp at h
              | ok adminURL =>
                  rw [hurl] at h
                  dsimp only at h
                  simp only [World.api] at h
                  unfold World.createSecret at h
                  dsimp only at h
                  rw [hfind] at h
                  dsimp only at h
                  simp only [Prod.mk.injEq] at h
                  obtain ⟨-, hw, -⟩ := h
                  subst hw
                  refine ⟨?_, rfl, rfl⟩
                  simp [List.find?_cons, secretKey]

/-- The fourth stage (`updateTenantStatus`) against the world
interpretation always succeeds, leaves the world unchanged, and leaves the
record with the candidate status and an unchanged spec, namespace and
name. -/
theorem updateTenantStatus_world_post {r : TenantR} {ts : TenantStatus} {w3 : World}
    {res : Except RErr Unit} {r' : TenantR} {w4 : World} {tr4 : List Call}
    (h : updateTenantStatus World.api r ts w3 = (res, r', w4, tr4)) :
    res = .ok () ∧ r'.status = ts ∧ r'.spec = r.spec ∧ r'.ns = r.ns ∧ w4 = w3 := by
  unfold updateTenantStatus at h
  by_cases heq : r.status = ts
  · rw [if_pos heq] at h
    simp only [Prod.mk.injEq] at h
    obtain ⟨h1, h2, h3, -⟩ := h
    subst h2
    subst h3
    exact ⟨h1.symm, heq, rfl, rfl, rfl⟩
  · rw [if_neg heq] at h
    dsimp only at h
    have hsu : World.api.statusUpdate { r with status := ts } w3
        = ((.ok () : Except KubeErr Unit), w3) := rfl
    rw [hsu] at h
    dsimp only at h
    simp only [Prod.mk.injEq] at h
    obtain ⟨h1, h2, h3, -⟩ := h
    subst h2
    subst h3
    exact ⟨h1.symm, rfl, rfl, rfl, rfl⟩

/-- A run from a converged world/record pair performs exactly the three
lookups (account, admin user, secret), succeeds, and changes nothing. -/
theorem steady_run (w : World) (r : TenantR) (h : SteadyState w r) :
    Run World.api r w =
      (.ok (), r, w,
        [Call.showTenant r.status.tenantId,
         Call.readUser r.status.tenantId r.status.adminId,
         Call.getSecret r.spec.tenantSecretRef.ns r.spec.tenantSecretRef.name]) := by
  obtain ⟨h0, ⟨a, hfindA, horg, hemail, hadm, ⟨p, hfindU, hun, hue, hstate⟩⟩, hsec⟩ := h
  have haid : a.id = r.status.tenantId := accountKey_eq (List.find?_some hfindA)
  have hpid : p.2.id = r.status.adminId := (userKey_eq (List.find?_some hfindU)).2
  have hfetch : fetchTenant World.api r w =
      (.ok (some { signup := { account := a } }), w, [Call.showTenant r.status.tenantId]) := by
    unfold fetchTenant
    rw [if_neg h0]
    have hs : World.api.showTenant r.status.tenantId w
        = World.showTenant w r.status.tenantId := rfl
    rw [hs]
    unfold World.showTenant
    rw [hfindA]
  have hsync : syncTenant World.api r { signup := { account := a } } w =
      (.ok { signup := { account := a } }, w, []) := by
    unfold syncTenant
    dsimp only
    rw [if_neg (not_not_intro horg.symm), if_neg (not_not_intro hemail.symm),
      if_neg Bool.false_ne_true]
  have hrec1 : reconcileTenant World.api r w =
      (.ok { signup := { account := a } }, w, [Call.showTenant r.status.tenantId]) := by
    unfold reconcileTenant
    rw [hfetch]
    dsimp only
    rw [hsync]
    rfl
  have hread : fetchAdminUser World.api r { signup := { account := a } } w =
      (.ok p.2, w, [Call.readUser r.status.tenantId r.status.adminId]) := by
    unfold fetchAdminUser
    rw [if_neg hadm]
    dsimp only
    have hr : World.api.readUser a.id r.status.adminId w
        = World.readUser w a.id r.status.adminId := rfl
    rw [hr]
    unfold World.readUser
    rw [hfindU]
    dsimp only
    rw [haid]
  have hsync2 : syncAdminUser World.api r { signup := { account := a } } p.2 w =
      (.ok p.2, w, []) := by
    unfold syncAdminUser
    rw [if_neg hstate]
    unfold syncAdminUserDrift
    dsimp only
    rw [if_neg (not_not_intro hun.symm), if_neg (not_not_intro hue.symm),
      if_neg Bool.false_ne_true]
  have hrec2 : reconcileAdminUser World.api r { signup := { account := a } } w =
      (.ok p.2, w, [Call.readUser r.status.tenantId r.status.adminId]) := by
    unfold reconcileAdminUser
    rw [hread]
    dsimp only
    rw [hsync2]
    rfl
  obtain ⟨sec, hsecEq⟩ := Option.isSome_iff_exists.mp hsec
  have hrec3 : reconcileAccessTokenSecret World.api r { signup := { account := a } } w =
      (.ok (), w, [Call.getSecret r.spec.tenantSecretRef.ns r.spec.tenantSecretRef.name]) := by
    unfold reconcileAccessTokenSecret findAccessTokenSecret
    have hg : World.api.getSecret r.spec.tenantSecretRef.ns r.spec.tenantSecretRef.name w
        = World.getSecret w r.spec.tenantSecretRef.ns r.spec.tenantSecretRef.name := rfl
    rw [hg]
    unfold World.getSecret
    rw [hsecEq]
  have hts : getTenantStatus { signup := { account := a } } p.2 = r.status := by
    unfold getTenantStatus
    dsimp only
    rw [haid, hpid]
  have hrec4 : updateTenantStatus World.api r r.status w = (.ok (), r, w, []) := by
    unfold updateTenantStatus
    rw [if_pos rfl]
  unfold Run
  rw [hrec1]
  dsimp only
  rw [hrec2]
  dsimp only
  rw [hrec3]
  dsimp only
  rw [hts, hrec4]
  rfl

/-- C8: after one successful reconciliation run against the world
interpretation of the collaborators (well-formed: remote user ids positive
and keyed by account id + user id), with no external change in between, a
second run performs reads only — exactly an account lookup, a user read and
a secret lookup; it issues no account create or update call, no user update
or activation call, no secret-create call and no status write, and leaves
the remote world and the record (its status included) unchanged. -/
theorem run_idempotent {w : World} {r : TenantR} {r' : TenantR} {w' : World}
    {tr : List Call}
    (hWF : World.WF w)
    (h : Run World.api r w = (.ok (), r', w', tr)) :
    Run World.api r' w' =
      (.ok (), r', w',
        [Call.showTenant r'.status.tenantId,
         Call.readUser r'.status.tenantId r'.status.adminId,
         Call.getSecret r'.spec.tenantSecretRef.ns r'.spec.tenantSecretRef.name]) ∧
    ∀ c ∈ (Run World.api r' w').2.2.2, c.isRead = true := by
  unfold Run at h
  rcases h1 : reconcileTenant World.api r w with ⟨res1, w1, tr1⟩
  rw [h1] at h
  cases res1 with
  | error e => simp at h
  | ok t =>
      dsimp only at h
      rcases h2 : reconcileAdminUser World.api r t w1 with ⟨res2, w2, tr2⟩
      rw [h2] at h
      cases res2 with
      | error e => simp at h
      | ok u' =>
          dsimp only at h
          rcases h3 : reconcileAccessTokenSecret World.api r t w2 with ⟨res3, w3, tr3⟩
          rw [h3] at h
          cases res3 with
          | error e => simp at h
          | ok u3 =>
              dsimp only at h
              rcases h4 : updateTenantStatus World.api r (getTenantStatus t u') w3 with
                ⟨res4, r4, w4, tr4⟩
              rw [h4] at h
              dsimp only at h
              simp only [Prod.mk.injEq] at h
              obtain ⟨hres4, hr4, hw4, -⟩ := h
              obtain ⟨hWF1, hid0, horg, hemail, hfindA⟩ := reconcileTenant_world_post hWF h1
              obtain ⟨huid0, ⟨q, hfindU, hqn, hqe, hqs⟩, hacc2, hsec2⟩ :=
                reconcileAdminUser_world_post hWF1 h2
              obtain ⟨hsec3, hacc3, husers3⟩ := reconcileAccessTokenSecret_world_post h3
              obtain ⟨-, hst4, hsp4, -, hw43⟩ := updateTenantStatus_world_post h4
              have hstid : r'.status = getTenantStatus t u' := by rw [← hr4]; exact hst4
              have hspec : r'.spec = r.spec := by rw [← hr4]; exact hsp4
              have hw'3 : w' = w3 := by rw [← hw4]; exact hw43
              have htid : r'.status.tenantId = t.signup.account.id := by rw [hstid]; rfl
              have hadm : r'.status.adminId = u'.id := by rw [hstid]; rfl
              have hsteady : SteadyState w' r' := by
                refine ⟨?_, ⟨t.signup.account, ?_, ?_, ?_, ?_, ⟨q, ?_, ?_, ?_, hqs⟩⟩, ?_⟩
                · rw [htid]
                  exact hid0
                · rw [hw'3, hacc3, hacc2, htid]
                  exact hfindA
                · rw [hspec]
                  exact horg
                · rw [hspec]
                  exact hemail
                · rw [hadm]
                  exact huid0
                · rw [hw'3, husers3, hadm]
                  exact hfindU
                · rw [hspec]
                  exact hqn
                · rw [hspec]
                  exact hqe
                · rw [hw'3, hspec]
                  exact hsec3
              have hrun2 := steady_run w' r' hsteady
              refine ⟨hrun2, ?_⟩
              rw [hrun2]
              intro c hc
              simp only [List.mem_cons, List.not_mem_nil, or_false] at hc
              rcases hc with rfl | rfl | rfl <;> rfl

/-! ### Concrete instances for counterexamples and witnesses -/

/-- A world holding a tenant account with id 5 and no users, applications or
secrets. -/
def wOne : World :=
  { accounts := [{ id := 5, orgName := "Org", supportEmail := "a@b", adminDomain := "d.example" }],
    users := [], applications := [], secrets := [],
    nextAccountId := 5, nextUserId := 9 }

/-- The spec of the concrete record below. -/
def rOneSpec : TenantSpec :=
  { organizationName := "Org", email := "a@b", username := "admin1",
    passwordCredentialsRef := { name := "pw", ns := "" },
    tenantSecretRef := { name := "sec", ns := "ns1" } }

/-- A record pointing at account 5 and (stale) admin user 9. -/
def rOne : TenantR :=
  { ns := "ns1", name := "t1", spec := rOneSpec,
    status := { tenantId := 5, adminId := 9 } }

/-- The porta view of account 5. -/
def tOne : PortaTenant :=
  { signup := { account :=
      { id := 5, orgName := "Org", supportEmail := "a@b", adminDomain := "d.example" } } }

/-- A collaborator instance whose status-subresource update fails. -/
def apiFail : Api Unit where
  showTenant := fun _ s => (.error .notFound, s)
  createTenant := fun _ _ _ _ s => (.error (.other "x"), s)
  updateTenant := fun _ _ _ s => (.error (.other "x"), s)
  listUsers := fun _ _ s => (.ok [], s)
  readUser := fun _ _ s => (.error .notFound, s)
  updateUser := fun _ _ _ _ s => (.error (.other "x"), s)
  activateUser := fun _ _ s => (.error (.other "x"), s)
  listApplications := fun _ s => (.ok [], s)
  getSecret := fun _ _ s => (.error .notFound, s)
  createSecret := fun _ s => (.error (.other "x"), s)
  statusUpdate := fun _ s => (.error (.other "boom"), s)

/-- C2 counterexample: with a nonzero status admin id whose direct fetch by
account id + user id reports NotFound, the fetch fails with that NotFound
and the run fails; the user-listing search branch is not taken (no
list-users call is issued). -/
theorem fetchAdminUser_notFound_not_recovered :
    (fetchAdminUser World.api rOne tOne wOne).1 = .error (.porta .notFound) ∧
    Call.listUsers 5 "admin" ∉ (fetchAdminUser World.api rOne tOne wOne).2.2 ∧
    (Run World.api rOne wOne).1 = .error (.porta .notFound) := by
  refine ⟨rfl, by decide, rfl⟩

/-- C2 (amended): a NotFound result from the direct user fetch by account id
+ user id is not recovered locally: like any other error of that read it is
propagated and fails the run; the listing/search branch is used only when
the status admin id is zero. -/
theorem fetchAdminUser_propagates_read_error (api : Api σ) (r : TenantR)
    (tenantDef : PortaTenant) (s : σ) (e : PortaErr) (s' : σ)
    (hid : r.status.adminId ≠ 0)
    (hread : api.readUser tenantDef.signup.account.id r.status.adminId s = (.error e, s')) :
    fetchAdminUser api r tenantDef s =
      (.error (.porta e), s', [Call.readUser tenantDef.signup.account.id r.status.adminId]) := by
  unfold fetchAdminUser
  rw [if_neg hid, hread]

/-- Witness for the amended C2 at a concrete input. -/
theorem fetchAdminUser_propagates_read_error_witness :
    fetchAdminUser World.api rOne tOne wOne =
      (.error (.porta .notFound), wOne, [Call.readUser 5 9]) :=
  fetchAdminUser_propagates_read_error World.api rOne tOne wOne .notFound wOne
    (by decide) rfl

/-- Witness for C6 at a concrete input: zero applications. -/
theorem reconcileAccessTokenSecret_application_count_witness :
    reconcileAccessTokenSecret World.api rOne tOne wOne =
      (.error (.unexpectedApplicationList 5), wOne,
        [Call.getSecret "ns1" "sec", Call.listApplications 5]) ∧
    ∀ sec, Call.createSecret sec ∉ (reconcileAccessTokenSecret World.api rOne tOne wOne).2.2 :=
  reconcileAccessTokenSecret_application_count World.api rOne tOne wOne wOne wOne
    .notFound [] rfl rfl rfl (by decide)

/-- Witness for C10 at a concrete input: the failing status write leaves the
record already overwritten. -/
theorem updateTenantStatus_overwrite_witness :
    updateTenantStatus apiFail rOne { tenantId := 7, adminId := 8 } () =
      (.error (.kube (.other "boom")),
        { rOne with status := { tenantId := 7, adminId := 8 } }, (),
        [Call.statusUpdate { rOne with status := { tenantId := 7, adminId := 8 } }]) :=
  updateTenantStatus_overwrites_before_persist apiFail rOne
    { tenantId := 7, adminId := 8 } () (.other "boom") () (by decide) rfl

/-- The password secret for the concrete creation scenario. -/
def pwSecret : K8sSecret :=
  { ns := "ns1", name := "pw", data := [("admin_password", "s3cr3t")],
    labels := [], ownerRefs := [], secretType := "Opaque" }

/-- An initial world holding only the password secret. -/
def wInit : World :=
  { accounts := [], users := [], applications := [], secrets := [pwSecret],
    nextAccountId := 0, nextUserId := 0 }

/-- A zeroed record: nothing provisioned yet. -/
def rInit : TenantR :=
  { ns := "ns1", name := "t1", spec := rOneSpec, status := { tenantId := 0, adminId := 0 } }

/-- The record after the first (creating) run. -/
def rPost : TenantR :=
  { ns := "ns1", name := "t1", spec := rOneSpec, status := { tenantId := 1, adminId := 1 } }

/-- The remote account created by the first run. -/
def acctPost : Account :=
  { id := 1, orgName := "Org", supportEmail := "a@b", adminDomain := "admin.Org" }

/-- The administrator user after the first run (activated). -/
def adminPost : User :=
  { id := 1, userName := "admin1", email := "a@b", state := "active", role := "admin" }

/-- The access-token secret created by the first run. -/
def tokenSecretPost : K8sSecret :=
  { ns := "ns1", name := "sec",
    data := [("token", "key-s3cr3t"), ("adminURL", "https://admin.Org")],
    labels := [("app", "3scale-operator")],
    ownerRefs := [{ kind := "Tenant", name := "t1" }],
    secretType := "Opaque" }

/-- The world after the first (creating) run. -/
def wPost : World :=
  { accounts := [acctPost], users := [(1, adminPost)],
    applications := [(1, { userKey := "key-s3cr3t" })],
    secrets := [tokenSecretPost, pwSecret],
    nextAccountId := 1, nextUserId := 1 }

/-- The calls the first (creating) run issues. -/
def firstTrace : List Call :=
  [Call.getSecret "ns1" "pw", Call.createTenant "Org" "admin1" "a@b" "s3cr3t",
   Call.listUsers 1 "admin", Call.activateUser 1 1,
   Call.getSecret "ns1" "sec", Call.listApplications 1,
   Call.createSecret tokenSecretPost, Call.statusUpdate rPost]

/-- The empty-user initial world is well-formed. -/
theorem wInit_WF : World.WF wInit := by
  constructor
  · intro p hp
    exact absurd hp (List.not_mem_nil p)
  · exact List.Pairwise.nil

/-- The first run from the zeroed record over the initial world creates the
account, admin, application and secret, and persists the status. -/
theorem rInit_first_run :
    Run World.api rInit wInit = (.ok (), rPost, wPost, firstTrace) := by
  rfl

/-- Witness for C8 at a concrete input: a first run from the zeroed record
over `wInit` creates everything; the second run is read-only and changes
nothing. -/
theorem run_idempotent_witness :
    Run World.api rPost wPost =
      (.ok (), rPost, wPost,
        [Call.showTenant 1, Call.readUser 1 1, Call.getSecret "ns1" "sec"]) ∧
    ∀ c ∈ (Run World.api rPost wPost).2.2.2, c.isRead = true :=
  run_idempotent wInit_WF rInit_first_run

end ThreeScale
